import Mathlib

/-!
Hoardings API (`backend/index.js`).

A shallow embedding of the five route handlers of `backend/index.js` and of the
statements they hand to the relational store, followed by the properties the
specification states about them.

* A handler is a program that issues parameterized statements (`db.query`) and
  finally sends one response (`res.json`, `res.status(500).json`).
* The statement texts are the template literals of the source, character for
  character; a small reader turns a statement text into its column lists.
* The store itself (`./db` and the database server behind it) is not part of
  the sources; the table model below follows the specification.
-/

namespace Hoardings

/-! ## JavaScript values -/

/-- A JavaScript value as it appears in a decoded JSON body, in a bound-value
list or in the argument of `res.json`. `undefined` is what reading a missing
property yields and what `res.json` turns into an empty body. -/
inductive JsVal where
  | undefined
  | null
  | bool (b : Bool)
  | num (n : Int)
  | str (s : String)
  | arr (items : List JsVal)
  | obj (props : List (String × JsVal))

/-- The own properties of an object, in insertion order. -/
abbrev Props := List (String × JsVal)

/-- Property read `o.k` on an object given by its properties: the value stored
under `k`, or `undefined` when there is none. -/
def getProp : Props → String → JsVal
  | [], _ => JsVal.undefined
  | (k', v) :: rest, k => if k' = k then v else getProp rest k

/-- Property read `v.k` on a value that is an object or an array (the only
values the handlers read properties from). An array has no named column
property. -/
def JsVal.prop : JsVal → String → JsVal
  | JsVal.obj props, k => getProp props k
  | _, _ => JsVal.undefined

/-! ## Requests, responses, store replies -/

/-- The response a handler sends: the status code and the argument of
`res.json` (`undefined` gives an empty body). -/
structure Response where
  status : Nat
  body : JsVal

/-- Sending with `res.json(v)`: the status stays at its default, 200. -/
def resJson (v : JsVal) : Response := ⟨200, v⟩

/-- Sending with `res.status(code).json(v)`. -/
def resStatusJson (code : Nat) (v : JsVal) : Response := ⟨code, v⟩

/-- A parameterized statement as passed to `db.query`: the text and the bound
values (`[]` when `db.query` is called without a value list). -/
structure Query where
  sql : String
  values : List JsVal

/-- The second callback argument on success: an array of row objects for a
`SELECT`, a result packet (an object with `insertId`, `affectedRows`, ...)
for the other statements. -/
inductive QueryResult where
  | rows (rs : List JsVal)
  | packet (props : Props)

/-- Property read `result.k`. -/
def QueryResult.prop : QueryResult → String → JsVal
  | QueryResult.rows _, _ => JsVal.undefined
  | QueryResult.packet props, k => getProp props k

/-- Index read `results[0]`. -/
def QueryResult.first : QueryResult → JsVal
  | QueryResult.rows [] => JsVal.undefined
  | QueryResult.rows (r :: _) => r
  | QueryResult.packet props => getProp props "0"

/-- The result as a value, for `res.json(results)`. -/
def QueryResult.toJs : QueryResult → JsVal
  | QueryResult.rows rs => JsVal.arr rs
  | QueryResult.packet props => JsVal.obj props

/-- What the store hands to the callback `(err, result)`: an error carrying
its message, or no error and a result. -/
inductive StoreReply where
  | failure (message : String)
  | success (result : QueryResult)

/-- Whether the callback received an error. -/
def StoreReply.isFailure : StoreReply → Bool
  | StoreReply.failure _ => true
  | StoreReply.success _ => false

/-- A route handler: it either sends a response or issues a statement and
continues in the callback with the store's reply. -/
inductive Prog where
  | respond (r : Response)
  | query (q : Query) (callback : StoreReply → Prog)

/-- Runs a handler against a store `exec` in state `s`: the response sent, the
store state afterwards and the statements issued, in order. -/
def Prog.run {σ : Type} (exec : σ → Query → StoreReply × σ) : Prog → σ → Response × σ × List Query
  | Prog.respond r, s => (r, s, [])
  | Prog.query q callback, s =>
    let out := (callback (exec s q).1).run exec (exec s q).2
    (out.1, out.2.1, q :: out.2.2)

/-- The response of a handler when the store answers every statement with
`reply`. -/
def Prog.answer (p : Prog) (reply : StoreReply) : Response :=
  (p.run (fun (_ : Unit) _ => (reply, ())) ()).1

/-- The statements a handler issues when the store answers every statement
with `reply`. -/
def Prog.issued (p : Prog) (reply : StoreReply) : List Query :=
  (p.run (fun (_ : Unit) _ => (reply, ())) ()).2.2

/-! ## The handlers of `index.js` -/

/-- The common first line of every callback:
`if (err) return res.status(500).json({ error: err.message })`, otherwise
continue with `onSuccess`. -/
def onReply (onSuccess : QueryResult → Response) : StoreReply → Prog
  | StoreReply.failure message =>
    Prog.respond (resStatusJson 500 (JsVal.obj [("error", JsVal.str message)]))
  | StoreReply.success result => Prog.respond (onSuccess result)

/-- The statement text of `app.post("/hoardings")`. -/
def insertSql : String :=
  "INSERT INTO hoardings \n    (h_name, address, city, state, latitude, longitude, size, owner_name, contact_person, \n     contact_number, ad_start_date, ad_end_date, status, rental_cost, contract_start_date, \n     contract_end_date, notes) \n    VALUES (?,?,?,?,?,?,?,?,?,?,?,?,?,?,?,?,?)"

/-- The statement text of `app.get("/hoardings")`. -/
def selectAllSql : String :=
  "SELECT h_id, h_name, address, city, state, latitude, longitude, size, owner_name, \n                      contact_person, contact_number, ad_start_date, ad_end_date, status, rental_cost, \n                      contract_start_date, contract_end_date, notes, created_at \n               FROM hoardings"

/-- The statement text of `app.get("/hoardings/:id")`. -/
def selectByIdSql : String :=
  "SELECT h_id, h_name, address, city, state, latitude, longitude, size, owner_name, \n                      contact_person, contact_number, ad_start_date, ad_end_date, status, rental_cost, \n                      contract_start_date, contract_end_date, notes, created_at \n               FROM hoardings WHERE h_id = ?"

/-- The statement text of `app.put("/hoardings/:id")`. -/
def updateSql : String :=
  "UPDATE hoardings SET \n    h_name=?, address=?, city=?, state=?, latitude=?, longitude=?, size=?, owner_name=?, \n    contact_person=?, contact_number=?, ad_start_date=?, ad_end_date=?, status=?, rental_cost=?, \n    contract_start_date=?, contract_end_date=?, notes=? \n    WHERE h_id=?"

/-- The statement text of `app.delete("/hoardings/:id")`. -/
def deleteSql : String := "DELETE FROM hoardings WHERE h_id = ?"

/-- The seventeen reads `data.h_name, ..., data.notes` of the value lists of
`app.post` and `app.put`, in the order they are written. -/
def fieldValues (data : Props) : List JsVal :=
  [getProp data "h_name", getProp data "address", getProp data "city", getProp data "state",
   getProp data "latitude", getProp data "longitude", getProp data "size",
   getProp data "owner_name", getProp data "contact_person", getProp data "contact_number",
   getProp data "ad_start_date", getProp data "ad_end_date",
   getProp data "status", getProp data "rental_cost", getProp data "contract_start_date",
   getProp data "contract_end_date", getProp data "notes"]

/-- Handler `app.post("/hoardings", ...)`; `body` is `req.body`. -/
def postHoardings (body : Props) : Prog :=
  Prog.query ⟨insertSql, fieldValues body⟩
    (onReply fun result =>
      resJson (JsVal.obj [("message", JsVal.str "Hoarding added"), ("id", result.prop "insertId")]))

/-- Handler `app.get("/hoardings", ...)`. -/
def getHoardings : Prog :=
  Prog.query ⟨selectAllSql, []⟩ (onReply fun results => resJson results.toJs)

/-- Handler `app.get("/hoardings/:id", ...)`; `id` is `req.params.id`. -/
def getHoardingById (id : String) : Prog :=
  Prog.query ⟨selectByIdSql, [JsVal.str id]⟩ (onReply fun results => resJson results.first)

/-- Handler `app.put("/hoardings/:id", ...)`; `id` is `req.params.id`, `body`
is `req.body`. -/
def putHoardingById (id : String) (body : Props) : Prog :=
  Prog.query ⟨updateSql, fieldValues body ++ [JsVal.str id]⟩
    (onReply fun _ => resJson (JsVal.obj [("message", JsVal.str "Hoarding updated")]))

/-- Handler `app.delete("/hoardings/:id", ...)`; `id` is `req.params.id`. -/
def deleteHoardingById (id : String) : Prog :=
  Prog.query ⟨deleteSql, [JsVal.str id]⟩
    (onReply fun _ => resJson (JsVal.obj [("message", JsVal.str "Hoarding deleted")]))

/-- The five operations of the API with the request data each one reads. -/
inductive Operation where
  | create (body : Props)
  | list
  | getById (id : String)
  | updateById (id : String) (body : Props)
  | deleteById (id : String)

/-- Route dispatch: the handler registered for an operation. -/
def handle : Operation → Prog
  | Operation.create body => postHoardings body
  | Operation.list => getHoardings
  | Operation.getById id => getHoardingById id
  | Operation.updateById id body => putHoardingById id body
  | Operation.deleteById id => deleteHoardingById id

/-! ## Reading a statement text -/

/-- Lexical tokens of the statements used here. -/
inductive Tok where
  | word (s : String)
  | lparen
  | rparen
  | comma
  | eq
  | placeholder
deriving DecidableEq, Repr

/-- Closes the word collected so far (kept in reverse) in front of `rest`. -/
def flushWord (acc : List Char) (rest : List Tok) : List Tok :=
  if acc.isEmpty then rest else Tok.word (String.mk acc.reverse) :: rest

/-- Splits a statement text into tokens: blanks separate words, and each of
`( ) , = ?` is a token of its own. -/
def tokenizeAux : List Char → List Char → List Tok
  | [], acc => flushWord acc []
  | c :: cs, acc =>
    if c = ' ' ∨ c = '\n' ∨ c = '\t' ∨ c = '\r' then flushWord acc (tokenizeAux cs [])
    else if c = '(' then flushWord acc (Tok.lparen :: tokenizeAux cs [])
    else if c = ')' then flushWord acc (Tok.rparen :: tokenizeAux cs [])
    else if c = ',' then flushWord acc (Tok.comma :: tokenizeAux cs [])
    else if c = '=' then flushWord acc (Tok.eq :: tokenizeAux cs [])
    else if c = '?' then flushWord acc (Tok.placeholder :: tokenizeAux cs [])
    else tokenizeAux cs (c :: acc)

/-- The tokens of a statement text. -/
def tokenize (sql : String) : List Tok := tokenizeAux sql.data []

/-- The number of `?` placeholders of a statement text. -/
def placeholders (sql : String) : Nat := (tokenize sql).count Tok.placeholder

/-- A statement as the store reads it. -/
inductive Stmt where
  | insert (table : String) (columns : List String) (slots : Nat)
  | select (columns : List String) (table : String) (whereColumn : Option String)
  | update (table : String) (columns : List String) (whereColumn : Option String)
  | delete (table : String) (whereColumn : Option String)
deriving DecidableEq, Repr

/-- Reads `name , name , ...` and returns the names with the remaining tokens. -/
def readNames : List Tok → Option (List String × List Tok)
  | Tok.word s :: Tok.comma :: rest =>
    match readNames rest with
    | some (names, rest') => some (s :: names, rest')
    | none => none
  | Tok.word s :: rest => some ([s], rest)
  | _ => none

/-- Reads `? , ? , ...` and returns how many with the remaining tokens. -/
def readSlots : List Tok → Option (Nat × List Tok)
  | Tok.placeholder :: Tok.comma :: rest =>
    match readSlots rest with
    | some (n, rest') => some (n + 1, rest')
    | none => none
  | Tok.placeholder :: rest => some (1, rest)
  | _ => none

/-- Reads `name = ? , name = ? , ...` and returns the names with the remaining
tokens. -/
def readAssignments : List Tok → Option (List String × List Tok)
  | Tok.word s :: Tok.eq :: Tok.placeholder :: Tok.comma :: rest =>
    match readAssignments rest with
    | some (names, rest') => some (s :: names, rest')
    | none => none
  | Tok.word s :: Tok.eq :: Tok.placeholder :: rest => some ([s], rest)
  | _ => none

/-- Reads an optional trailing `WHERE name = ?`; nothing may follow it. -/
def readWhere : List Tok → Option (Option String)
  | [] => some none
  | [Tok.word "WHERE", Tok.word c, Tok.eq, Tok.placeholder] => some (some c)
  | _ => none

/-- Reads a token list as one of the four statement forms. -/
def parseTokens : List Tok → Option Stmt
  | Tok.word "INSERT" :: Tok.word "INTO" :: Tok.word table :: Tok.lparen :: rest =>
    match readNames rest with
    | some (columns, Tok.rparen :: Tok.word "VALUES" :: Tok.lparen :: rest') =>
      match readSlots rest' with
      | some (n, [Tok.rparen]) => some (Stmt.insert table columns n)
      | _ => none
    | _ => none
  | Tok.word "SELECT" :: rest =>
    match readNames rest with
    | some (columns, Tok.word "FROM" :: Tok.word table :: rest') =>
      match readWhere rest' with
      | some w => some (Stmt.select columns table w)
      | none => none
    | _ => none
  | Tok.word "UPDATE" :: Tok.word table :: Tok.word "SET" :: rest =>
    match readAssignments rest with
    | some (columns, rest') =>
      match readWhere rest' with
      | some w => some (Stmt.update table columns w)
      | none => none
    | none => none
  | Tok.word "DELETE" :: Tok.word "FROM" :: Tok.word table :: rest =>
    match readWhere rest with
    | some w => some (Stmt.delete table w)
    | none => none
  | _ => none

/-- Reads a statement text. -/
def parseSql (sql : String) : Option Stmt := parseTokens (tokenize sql)

/-- The seventeen non-key fields of a hoarding, in the order of the data
model. -/
def nonKeyFields : List String :=
  ["h_name", "address", "city", "state", "latitude", "longitude", "size", "owner_name",
   "contact_person", "contact_number", "ad_start_date", "ad_end_date", "status", "rental_cost",
   "contract_start_date", "contract_end_date", "notes"]

/-- All nineteen persisted columns of a hoarding. -/
def allColumns : List String := "h_id" :: nonKeyFields ++ ["created_at"]

/-! ## The table behind the store -/

/-- Modelled from the spec: one row of the table `hoardings` (the table
definition is not part of the sources). The key `h_id` is an integer, the
seventeen non-key columns hold the values written to them, `created_at` holds
the insertion time. -/
structure Row where
  h_id : Nat
  fields : Props
  created_at : JsVal

/-- Modelled from the spec: the state of the store behind `./db`, which is not
part of the sources: the rows of `hoardings` and the auto-increment counter
that assigns the next `h_id`. -/
structure Table where
  rows : List Row
  autoIncrement : Nat

/-- The value of a run of decimal digits, continuing from `acc`. -/
def digitsValue : List Char → Nat → Option Nat
  | [], acc => some acc
  | c :: cs, acc =>
    if c.isDigit then digitsValue cs (acc * 10 + (c.toNat - 48)) else none

/-- Modelled from the spec: the key a bound value denotes when the store
compares it with the integer column `h_id`: a non-negative number, or a
string of decimal digits (the path segment of `/hoardings/:id`). -/
def idOfValue : JsVal → Option Nat
  | JsVal.num n => if 0 ≤ n then some n.toNat else none
  | JsVal.str s =>
    match s.data with
    | [] => none
    | c :: cs => digitsValue (c :: cs) 0
  | _ => none

/-- Whether `WHERE h_id = ?` with bound value `v` selects the row. -/
def Row.matchesId (v : JsVal) (r : Row) : Bool := decide (idOfValue v = some r.h_id)

/-- The value of column `c` in a row. -/
def Row.column (r : Row) (c : String) : JsVal :=
  if c = "h_id" then JsVal.num r.h_id
  else if c = "created_at" then r.created_at
  else getProp r.fields c

/-- The row object a `SELECT` of `columns` returns for a row. -/
def Row.record (columns : List String) (r : Row) : JsVal :=
  JsVal.obj (columns.map fun c => (c, r.column c))

/-- Stores `v` under `k`, replacing what was stored there. -/
def setProp : Props → String → JsVal → Props
  | [], k, v => [(k, v)]
  | (k', v') :: rest, k, v =>
    if k' = k then (k', v) :: rest else (k', v') :: setProp rest k v

/-- Writes `v` to column `c` of a row. -/
def Row.assign (r : Row) (c : String) (v : JsVal) : Row :=
  if c = "h_id" then
    match idOfValue v with
    | some n => { r with h_id := n }
    | none => r
  else if c = "created_at" then { r with created_at := v }
  else { r with fields := setProp r.fields c v }

/-- Writes a list of column assignments to a row, left to right. -/
def Row.assignAll (r : Row) : List (String × JsVal) → Row
  | [] => r
  | (c, v) :: rest => (r.assign c v).assignAll rest

/-- The row an `INSERT` starts from: the key taken from the auto-increment
counter, every non-key column `NULL`, `created_at` the insertion time. -/
def Row.fresh (key now : Nat) : Row :=
  { h_id := key
    fields := nonKeyFields.map fun c => (c, JsVal.null)
    created_at := JsVal.num now }

/-- Whether every named column is a column of `hoardings`. -/
def knownColumns (columns : List String) : Bool :=
  columns.all fun c => decide (c ∈ allColumns)

/-- The rows a `WHERE` clause selects: all rows without one, the rows with the
bound key for `WHERE h_id = ?`. -/
def rowFilter : Option String → List JsVal → Option (Row → Bool)
  | none, [] => some fun _ => true
  | some c, [v] => if c = "h_id" then some (Row.matchesId v) else none
  | _, _ => none

/-- The result packet of a statement that is not a `SELECT`. -/
def okPacket (affectedRows insertId : Nat) : QueryResult :=
  QueryResult.packet [("affectedRows", JsVal.num affectedRows), ("insertId", JsVal.num insertId)]

/-- Modelled from the spec: execution of one statement, once read, by the store
behind `./db`, which is not part of the sources. `INSERT` adds one row with
the key of the auto-increment counter, the bound values in the named columns
and `created_at` set to the insertion time `now`; `SELECT` returns the
selected rows projected over the named columns; `UPDATE` writes the bound
values to the named columns of the selected rows; `DELETE` removes the
selected rows. A statement the table cannot take fails and changes nothing. -/
def Table.execStmt (now : Nat) (t : Table) : Stmt → List JsVal → StoreReply × Table
  | Stmt.insert table columns slots, values =>
    if table ≠ "hoardings" then (StoreReply.failure "Table does not exist", t)
    else if knownColumns columns = false then (StoreReply.failure "Unknown column", t)
    else if columns.length ≠ slots ∨ values.length ≠ slots then
      (StoreReply.failure "Column count does not match value count", t)
    else
      let row := (Row.fresh t.autoIncrement now).assignAll (columns.zip values)
      if t.rows.any (fun r => decide (r.h_id = row.h_id)) then
        (StoreReply.failure "Duplicate entry for key PRIMARY", t)
      else
        (StoreReply.success (okPacket 1 row.h_id),
          { rows := t.rows ++ [row], autoIncrement := max t.autoIncrement (row.h_id + 1) })
  | Stmt.select columns table whereColumn, values =>
    if table ≠ "hoardings" then (StoreReply.failure "Table does not exist", t)
    else if knownColumns columns = false then (StoreReply.failure "Unknown column", t)
    else
      match rowFilter whereColumn values with
      | none => (StoreReply.failure "Unknown WHERE clause", t)
      | some selected =>
        (StoreReply.success (QueryResult.rows ((t.rows.filter selected).map (Row.record columns))), t)
  | Stmt.update table columns whereColumn, values =>
    if table ≠ "hoardings" then (StoreReply.failure "Table does not exist", t)
    else if knownColumns columns = false then (StoreReply.failure "Unknown column", t)
    else
      match rowFilter whereColumn (values.drop columns.length) with
      | none => (StoreReply.failure "Unknown WHERE clause", t)
      | some selected =>
        (StoreReply.success (okPacket (t.rows.countP selected) 0),
          { t with rows := t.rows.map fun r =>
              if selected r then r.assignAll (columns.zip values) else r })
  | Stmt.delete table whereColumn, values =>
    if table ≠ "hoardings" then (StoreReply.failure "Table does not exist", t)
    else
      match rowFilter whereColumn values with
      | none => (StoreReply.failure "Unknown WHERE clause", t)
      | some selected =>
        (StoreReply.success (okPacket (t.rows.countP selected) 0),
          { t with rows := t.rows.filter fun r => !selected r })

/-- Modelled from the spec: `db.query` of `./db`, which is not part of the
sources: the store reads the statement text and executes it on the table; a
text it cannot read is an error. -/
def Table.exec (now : Nat) (t : Table) (q : Query) : StoreReply × Table :=
  match parseSql q.sql with
  | none => (StoreReply.failure "You have an error in your SQL syntax", t)
  | some stmt => t.execStmt now stmt q.values

/-- Serves one request on the table at time `now`: the response and the table
afterwards. -/
def serve (now : Nat) (t : Table) (op : Operation) : Response × Table :=
  (((handle op).run (Table.exec now) t).1, ((handle op).run (Table.exec now) t).2.1)

/-- Serves a sequence of create requests, each with its insertion time, and
collects the responses. -/
def createAll (t : Table) : List (Nat × Props) → List Response × Table
  | [] => ([], t)
  | (now, body) :: rest =>
    let step := serve now t (Operation.create body)
    let out := createAll step.2 rest
    (step.1 :: out.1, out.2)

/-- The property names of an object, in order. -/
def JsVal.keys : JsVal → List String
  | JsVal.obj props => props.map Prod.fst
  | _ => []

/-- The elements of an array. -/
def JsVal.items : JsVal → List JsVal
  | JsVal.arr xs => xs
  | _ => []

/-- Keys are unique and below the auto-increment counter. -/
def Table.WellFormed (t : Table) : Prop :=
  (t.rows.map Row.h_id).Nodup ∧ ∀ r ∈ t.rows, r.h_id < t.autoIncrement

/-- The empty table, with the counter at 1. -/
def Table.empty : Table := { rows := [], autoIncrement := 1 }

/-- A table with one hoarding, key 1, created at time 5. -/
def sampleTable : Table :=
  { rows := [{ h_id := 1
               fields := [("h_name", JsVal.str "Old"), ("notes", JsVal.str "n")]
               created_at := JsVal.num 5 }]
    autoIncrement := 2 }

/-- The row that the column list and the value list of `app.post` and
`app.put` write over `r`. -/
def Row.written (r : Row) (body : Props) : Row :=
  r.assignAll (nonKeyFields.zip (fieldValues body))

/-- The rows that successive creates add when the counter starts at `key`. -/
def createdRows (key : Nat) : List (Nat × Props) → List Row
  | [] => []
  | (now, body) :: rest => (Row.fresh key now).written body :: createdRows (key + 1) rest

theorem parse_insertSql : parseSql insertSql = some (Stmt.insert "hoardings" nonKeyFields 17) := by
  decide

theorem parse_selectAllSql : parseSql selectAllSql = some (Stmt.select allColumns "hoardings" none) := by
  decide

theorem parse_selectByIdSql :
    parseSql selectByIdSql = some (Stmt.select allColumns "hoardings" (some "h_id")) := by
  decide

theorem parse_updateSql :
    parseSql updateSql = some (Stmt.update "hoardings" nonKeyFields (some "h_id")) := by
  decide

theorem parse_deleteSql : parseSql deleteSql = some (Stmt.delete "hoardings" (some "h_id")) := by
  decide


/-! ## Reading and writing columns -/

theorem getProp_setProp_same (ps : Props) (k : String) (v : JsVal) :
    getProp (setProp ps k v) k = v := by
  induction ps with
  | nil => simp [setProp, getProp]
  | cons p ps ih =>
    obtain ⟨k', v'⟩ := p
    by_cases h : k' = k
    · simp [setProp, getProp, h]
    · simp [setProp, getProp, h, ih]

theorem getProp_setProp_other (ps : Props) (k c : String) (v : JsVal) (h : c ≠ k) :
    getProp (setProp ps k v) c = getProp ps c := by
  induction ps with
  | nil => simp [setProp, getProp, Ne.symm h]
  | cons p ps ih =>
    obtain ⟨k', v'⟩ := p
    by_cases hk : k' = k
    · subst hk
      simp [setProp, getProp, Ne.symm h]
    · by_cases hc : k' = c
      · subst hc
        simp [setProp, getProp, hk]
      · simp [setProp, getProp, hk, hc, ih]

theorem getProp_map (g : String → JsVal) (columns : List String) (c : String) (h : c ∈ columns) :
    getProp (columns.map fun k => (k, g k)) c = g c := by
  induction columns with
  | nil => simp at h
  | cons k ks ih =>
    by_cases hk : k = c
    · simp [getProp, hk]
    · have hc : c ∈ ks := by
        rcases List.mem_cons.mp h with h1 | h1
        · exact absurd h1.symm hk
        · exact h1
      simp [getProp, hk, ih hc]

theorem zip_fieldValues (body : Props) :
    nonKeyFields.zip (fieldValues body) = nonKeyFields.map fun c => (c, getProp body c) := rfl

theorem nonKeyFields_not_key : ∀ c ∈ nonKeyFields, c ≠ "h_id" ∧ c ≠ "created_at" := by
  decide

theorem assign_h_id (r : Row) (c : String) (v : JsVal) (h : c ≠ "h_id") :
    (r.assign c v).h_id = r.h_id := by
  unfold Row.assign
  simp only [h, if_false]
  split <;> rfl

theorem assign_created_at (r : Row) (c : String) (v : JsVal) (h : c ≠ "created_at") :
    (r.assign c v).created_at = r.created_at := by
  unfold Row.assign
  split
  · split <;> rfl
  · simp only [h, if_false]

theorem assign_fields_other (r : Row) (k c : String) (v : JsVal) (h : c ≠ k) :
    getProp (r.assign k v).fields c = getProp r.fields c := by
  unfold Row.assign
  split
  · split <;> rfl
  · split
    · rfl
    · exact getProp_setProp_other r.fields k c v h

theorem assign_fields_same (r : Row) (c : String) (v : JsVal)
    (h1 : c ≠ "h_id") (h2 : c ≠ "created_at") :
    getProp (r.assign c v).fields c = v := by
  unfold Row.assign
  simp only [h1, h2, if_false]
  exact getProp_setProp_same r.fields c v

theorem assignAll_h_id (g : String → JsVal) (columns : List String) (r : Row)
    (h : "h_id" ∉ columns) :
    (r.assignAll (columns.map fun c => (c, g c))).h_id = r.h_id := by
  induction columns generalizing r with
  | nil => rfl
  | cons k ks ih =>
    simp only [List.mem_cons, not_or] at h
    simp only [List.map_cons, Row.assignAll]
    rw [ih _ h.2, assign_h_id r k (g k) (Ne.symm h.1)]

theorem assignAll_created_at (g : String → JsVal) (columns : List String) (r : Row)
    (h : "created_at" ∉ columns) :
    (r.assignAll (columns.map fun c => (c, g c))).created_at = r.created_at := by
  induction columns generalizing r with
  | nil => rfl
  | cons k ks ih =>
    simp only [List.mem_cons, not_or] at h
    simp only [List.map_cons, Row.assignAll]
    rw [ih _ h.2, assign_created_at r k (g k) (Ne.symm h.1)]

theorem assignAll_fields_other (g : String → JsVal) (columns : List String) (r : Row) (c : String)
    (h : c ∉ columns) :
    getProp (r.assignAll (columns.map fun k => (k, g k))).fields c = getProp r.fields c := by
  induction columns generalizing r with
  | nil => rfl
  | cons k ks ih =>
    simp only [List.mem_cons, not_or] at h
    simp only [List.map_cons, Row.assignAll]
    rw [ih _ h.2, assign_fields_other r k c (g k) h.1]

theorem assignAll_fields (g : String → JsVal) (columns : List String) (r : Row) (c : String)
    (h : c ∈ columns) (h1 : c ≠ "h_id") (h2 : c ≠ "created_at") :
    getProp (r.assignAll (columns.map fun k => (k, g k))).fields c = g c := by
  induction columns generalizing r with
  | nil => simp at h
  | cons k ks ih =>
    simp only [List.map_cons, Row.assignAll]
    by_cases hc : c ∈ ks
    · exact ih _ hc
    · have hk : c = k := by
        rcases List.mem_cons.mp h with h3 | h3
        · exact h3
        · exact absurd h3 hc
      subst hk
      rw [assignAll_fields_other g ks _ c hc]
      exact assign_fields_same r c (g c) h1 h2

theorem written_h_id (r : Row) (body : Props) : (r.written body).h_id = r.h_id := by
  unfold Row.written
  rw [zip_fieldValues]
  exact assignAll_h_id _ _ r (by decide)

theorem written_created_at (r : Row) (body : Props) :
    (r.written body).created_at = r.created_at := by
  unfold Row.written
  rw [zip_fieldValues]
  exact assignAll_created_at _ _ r (by decide)

theorem written_column (r : Row) (body : Props) (c : String) (h : c ∈ nonKeyFields) :
    (r.written body).column c = getProp body c := by
  have hk := nonKeyFields_not_key c h
  unfold Row.written Row.column
  rw [zip_fieldValues]
  simp only [hk.1, hk.2, if_false]
  exact assignAll_fields _ _ r c h hk.1 hk.2

theorem exec_insert (now : Nat) (t : Table) (body : Props) :
    t.exec now ⟨insertSql, fieldValues body⟩ =
      if t.rows.any (fun r => decide (r.h_id = t.autoIncrement)) then
        (StoreReply.failure "Duplicate entry for key PRIMARY", t)
      else
        (StoreReply.success (okPacket 1 t.autoIncrement),
          { rows := t.rows ++ [(Row.fresh t.autoIncrement now).written body],
            autoIncrement := t.autoIncrement + 1 }) := by
  have hk : knownColumns nonKeyFields = true := by decide
  have hrow : ((Row.fresh t.autoIncrement now).assignAll (nonKeyFields.zip (fieldValues body))).h_id
      = t.autoIncrement := written_h_id _ body
  simp only [Table.exec, parse_insertSql, Table.execStmt, hk, hrow]
  simp [Row.written, nonKeyFields, fieldValues]


theorem exec_selectAll (now : Nat) (t : Table) :
    t.exec now ⟨selectAllSql, []⟩ =
      (StoreReply.success (QueryResult.rows (t.rows.map (Row.record allColumns))), t) := by
  have hk : knownColumns allColumns = true := by decide
  simp only [Table.exec, parse_selectAllSql, Table.execStmt, hk, rowFilter]
  simp

theorem exec_selectById (now : Nat) (t : Table) (id : String) :
    t.exec now ⟨selectByIdSql, [JsVal.str id]⟩ =
      (StoreReply.success (QueryResult.rows
        ((t.rows.filter (Row.matchesId (JsVal.str id))).map (Row.record allColumns))), t) := by
  have hk : knownColumns allColumns = true := by decide
  simp only [Table.exec, parse_selectByIdSql, Table.execStmt, hk, rowFilter]
  simp

theorem exec_update (now : Nat) (t : Table) (id : String) (body : Props) :
    t.exec now ⟨updateSql, fieldValues body ++ [JsVal.str id]⟩ =
      (StoreReply.success (okPacket (t.rows.countP (Row.matchesId (JsVal.str id))) 0),
        { t with rows := t.rows.map fun r =>
            if r.matchesId (JsVal.str id) then r.written body else r }) := by
  have hk : knownColumns nonKeyFields = true := by decide
  have hd : (fieldValues body ++ [JsVal.str id]).drop nonKeyFields.length = [JsVal.str id] := rfl
  have hz : nonKeyFields.zip (fieldValues body ++ [JsVal.str id])
      = nonKeyFields.zip (fieldValues body) := rfl
  simp only [Table.exec, parse_updateSql, Table.execStmt, hk, hd, hz, rowFilter, Row.written]
  simp

theorem exec_delete (now : Nat) (t : Table) (id : String) :
    t.exec now ⟨deleteSql, [JsVal.str id]⟩ =
      (StoreReply.success (okPacket (t.rows.countP (Row.matchesId (JsVal.str id))) 0),
        { t with rows := t.rows.filter fun r => !r.matchesId (JsVal.str id) }) := by
  simp only [Table.exec, parse_deleteSql, Table.execStmt, rowFilter]
  simp


/-! ## Serving requests on the table -/

theorem wellFormed_no_duplicate (t : Table) (h : t.WellFormed) :
    t.rows.any (fun r => decide (r.h_id = t.autoIncrement)) = false := by
  rw [List.any_eq_false]
  intro r hr
  have := h.2 r hr
  simp only [decide_eq_true_eq]
  omega

theorem run_query {σ : Type} (exec : σ → Query → StoreReply × σ) (q : Query)
    (callback : StoreReply → Prog) (s s' : σ) (reply : StoreReply) (r : Response)
    (hexec : exec s q = (reply, s')) (hk : callback reply = Prog.respond r) :
    (Prog.query q callback).run exec s = (r, s', [q]) := by
  simp only [Prog.run, hexec, hk]

theorem serve_eq (now : Nat) (t t' : Table) (op : Operation) (q : Query)
    (callback : StoreReply → Prog) (reply : StoreReply) (r : Response)
    (hop : handle op = Prog.query q callback) (hexec : t.exec now q = (reply, t'))
    (hk : callback reply = Prog.respond r) :
    serve now t op = (r, t') := by
  unfold serve
  rw [hop, run_query (Table.exec now) q callback t t' reply r hexec hk]

theorem serve_create (now : Nat) (t : Table) (body : Props) (h : t.WellFormed) :
    serve now t (Operation.create body) =
      (⟨200, JsVal.obj [("message", JsVal.str "Hoarding added"),
                        ("id", JsVal.num t.autoIncrement)]⟩,
        { rows := t.rows ++ [(Row.fresh t.autoIncrement now).written body],
          autoIncrement := t.autoIncrement + 1 }) := by
  have hexec : t.exec now ⟨insertSql, fieldValues body⟩
      = (StoreReply.success (okPacket 1 t.autoIncrement),
          { rows := t.rows ++ [(Row.fresh t.autoIncrement now).written body],
            autoIncrement := t.autoIncrement + 1 }) := by
    rw [exec_insert, wellFormed_no_duplicate t h]
    rfl
  exact serve_eq now t _ _ _ _ _ _ rfl hexec rfl

theorem serve_list (now : Nat) (t : Table) :
    serve now t Operation.list = (⟨200, JsVal.arr (t.rows.map (Row.record allColumns))⟩, t) := by
  exact serve_eq now t _ _ _ _ _ _ rfl (exec_selectAll now t) rfl

theorem serve_getById (now : Nat) (t : Table) (id : String) :
    serve now t (Operation.getById id) =
      (⟨200, (QueryResult.rows
        ((t.rows.filter (Row.matchesId (JsVal.str id))).map (Row.record allColumns))).first⟩, t) := by
  exact serve_eq now t _ _ _ _ _ _ rfl (exec_selectById now t id) rfl

theorem serve_updateById (now : Nat) (t : Table) (id : String) (body : Props) :
    serve now t (Operation.updateById id body) =
      (⟨200, JsVal.obj [("message", JsVal.str "Hoarding updated")]⟩,
        { t with rows := t.rows.map fun r =>
            if r.matchesId (JsVal.str id) then r.written body else r }) := by
  exact serve_eq now t _ _ _ _ _ _ rfl (exec_update now t id body) rfl

theorem serve_deleteById (now : Nat) (t : Table) (id : String) :
    serve now t (Operation.deleteById id) =
      (⟨200, JsVal.obj [("message", JsVal.str "Hoarding deleted")]⟩,
        { t with rows := t.rows.filter fun r => !r.matchesId (JsVal.str id) }) := by
  exact serve_eq now t _ _ _ _ _ _ rfl (exec_delete now t id) rfl

theorem wellFormed_create (now : Nat) (t : Table) (body : Props) (h : t.WellFormed) :
    (serve now t (Operation.create body)).2.WellFormed := by
  rw [serve_create now t body h]
  constructor
  · simp only [List.map_append, List.map_cons, List.map_nil, written_h_id, Row.fresh]
    rw [List.nodup_append]
    refine ⟨h.1, List.nodup_singleton _, ?_⟩
    intro a ha hb
    simp only [List.mem_singleton] at hb
    obtain ⟨r, hr, rfl⟩ := List.mem_map.mp ha
    have := h.2 r hr
    omega
  · intro r hr
    simp only [List.mem_append, List.mem_singleton] at hr
    rcases hr with hr | hr
    · have := h.2 r hr
      show r.h_id < t.autoIncrement + 1
      omega
    · subst hr
      show ((Row.fresh t.autoIncrement now).written body).h_id < t.autoIncrement + 1
      rw [written_h_id]
      show t.autoIncrement < t.autoIncrement + 1
      omega

theorem record_prop (r : Row) (columns : List String) (c : String) (h : c ∈ columns) :
    (r.record columns).prop c = r.column c :=
  getProp_map r.column columns c h

/-! ## The response contract of the five handlers -/

/-- C1: for each of the five operations and every request, a store error with
message `m` gives status 500 and body exactly `{error: m}`, a store success
gives status 200; the status is 500 exactly when the store failed, and it is
always 200 or 500. -/
theorem store_failure_gives_500 (op : Operation) (m : String) (result : QueryResult)
    (reply : StoreReply) :
    (handle op).answer (StoreReply.failure m) = ⟨500, JsVal.obj [("error", JsVal.str m)]⟩
    ∧ ((handle op).answer (StoreReply.success result)).status = 200
    ∧ (((handle op).answer reply).status = 500 ↔ reply.isFailure = true)
    ∧ (((handle op).answer reply).status = 200 ∨ ((handle op).answer reply).status = 500) := by
  cases op <;> cases reply <;>
    simp [handle, postHoardings, getHoardings, getHoardingById, putHoardingById,
      deleteHoardingById, Prog.answer, Prog.run, onReply, resJson, resStatusJson,
      StoreReply.isFailure]

/-- C2: for every request body, when the store accepts the INSERT and reports
`insertId = n`, Create responds with status 200 and body exactly
`{message: "Hoarding added", id: n}`; the response is the same for any other
request body. -/
theorem create_returns_insertId (body other : Props) (result : QueryResult) (n : Int)
    (h : result.prop "insertId" = JsVal.num n) :
    (postHoardings body).answer (StoreReply.success result)
        = ⟨200, JsVal.obj [("message", JsVal.str "Hoarding added"), ("id", JsVal.num n)]⟩
    ∧ (postHoardings other).answer (StoreReply.success result)
        = (postHoardings body).answer (StoreReply.success result) := by
  simp [postHoardings, Prog.answer, Prog.run, onReply, resJson, h]

theorem create_returns_insertId_witness :
    (postHoardings [("h_name", JsVal.str "Billboard A")]).answer
        (StoreReply.success (okPacket 1 7))
        = ⟨200, JsVal.obj [("message", JsVal.str "Hoarding added"), ("id", JsVal.num 7)]⟩
    ∧ (postHoardings [("h_id", JsVal.num 99)]).answer (StoreReply.success (okPacket 1 7))
        = (postHoardings [("h_name", JsVal.str "Billboard A")]).answer
            (StoreReply.success (okPacket 1 7)) :=
  create_returns_insertId [("h_name", JsVal.str "Billboard A")] [("h_id", JsVal.num 99)]
    (okPacket 1 7) 7 rfl

/-- C3: for every id, GetByID responds with status 200 in both success cases:
the body is the first row of a non-empty result list, and it is empty
(`undefined`, no error and no not-found status) for an empty result list. -/
theorem getById_first_row_or_empty (id : String) (row : JsVal) (rest : List JsVal) :
    (getHoardingById id).answer (StoreReply.success (QueryResult.rows (row :: rest))) = ⟨200, row⟩
    ∧ (getHoardingById id).answer (StoreReply.success (QueryResult.rows []))
        = ⟨200, JsVal.undefined⟩ := by
  simp [getHoardingById, Prog.answer, Prog.run, onReply, resJson, QueryResult.first]

/-- C4: for every id and request body, whenever the store reports no error,
UpdateByID responds with exactly `{message: "Hoarding updated"}` and DeleteByID
with exactly `{message: "Hoarding deleted"}`, both with status 200, whatever
result (affected-row count) the store reports; so the response for an id that
matches no row is the response for an id that matches one. -/
theorem update_delete_acknowledge (id : String) (body : Props) (result : QueryResult) :
    (putHoardingById id body).answer (StoreReply.success result)
        = ⟨200, JsVal.obj [("message", JsVal.str "Hoarding updated")]⟩
    ∧ (deleteHoardingById id).answer (StoreReply.success result)
        = ⟨200, JsVal.obj [("message", JsVal.str "Hoarding deleted")]⟩ := by
  simp [putHoardingById, deleteHoardingById, Prog.answer, Prog.run, onReply, resJson]


/-! ## Round trips through the table -/

/-! The decimal rendering of a key, as a client puts it in the path
`/hoardings/:id`, denotes that key. -/

theorem digitChar_isDigit (m : Nat) (h : m < 10) :
    (Nat.digitChar m).isDigit = true ∧ (Nat.digitChar m).toNat - 48 = m := by
  interval_cases m <;> exact ⟨rfl, rfl⟩

theorem digitsValue_toDigitsCore (fuel : Nat) :
    ∀ n ds, n < fuel → ∃ k, ∀ acc,
      digitsValue (Nat.toDigitsCore 10 fuel n ds) acc = digitsValue ds (acc * 10 ^ k + n) := by
  induction fuel with
  | zero => intro n ds h; omega
  | succ fuel ih =>
    intro n ds h
    have hd := digitChar_isDigit (n % 10) (Nat.mod_lt n (by decide))
    by_cases h0 : n / 10 = 0
    · refine ⟨1, fun acc => ?_⟩
      have hn : n % 10 = n := Nat.mod_eq_of_lt (by omega)
      rw [hn] at hd
      simp only [Nat.toDigitsCore, h0, if_true, digitsValue, hd.1, hd.2, pow_one, hn]
    · obtain ⟨k, hk⟩ := ih (n / 10) (Nat.digitChar (n % 10) :: ds) (by omega)
      refine ⟨k + 1, fun acc => ?_⟩
      simp only [Nat.toDigitsCore, h0, if_false, hk, digitsValue, hd.1, hd.2, if_true]
      congr 1
      have := Nat.div_add_mod n 10
      rw [pow_succ]
      nlinarith [Nat.div_add_mod n 10]

theorem toDigitsCore_ne_nil (fuel n : Nat) (ds : List Char) (h : ds ≠ []) :
    Nat.toDigitsCore 10 fuel n ds ≠ [] := by
  induction fuel generalizing n ds with
  | zero => exact h
  | succ fuel ih =>
    simp only [Nat.toDigitsCore]
    split
    · exact List.cons_ne_nil _ _
    · exact ih _ _ (List.cons_ne_nil _ _)

theorem idOfValue_toString (n : Nat) : idOfValue (JsVal.str (toString n)) = some n := by
  have hdata : (toString n).data = Nat.toDigitsCore 10 (n + 1) n [] := rfl
  obtain ⟨k, hk⟩ := digitsValue_toDigitsCore (n + 1) n [] (by omega)
  have hval := hk 0
  simp only [digitsValue, zero_mul, zero_add] at hval
  have hne : Nat.toDigitsCore 10 (n + 1) n [] ≠ [] := by
    simp only [Nat.toDigitsCore]
    split
    · exact List.cons_ne_nil _ _
    · exact toDigitsCore_ne_nil _ _ _ (List.cons_ne_nil _ _)
  show (match (toString n).data with
    | [] => none
    | c :: cs => digitsValue (c :: cs) 0) = some n
  rw [hdata]
  cases hl : Nat.toDigitsCore 10 (n + 1) n [] with
  | nil => exact absurd hl hne
  | cons c cs =>
    simp only []
    rw [← hl]
    exact hval

theorem matchesId_iff (v : JsVal) (r : Row) :
    r.matchesId v = true ↔ idOfValue v = some r.h_id := by
  simp [Row.matchesId]

theorem filter_matches_fresh (t : Table) (h : t.WellFormed) (v : JsVal) (row : Row)
    (hv : idOfValue v = some t.autoIncrement) (hrow : row.h_id = t.autoIncrement) :
    (t.rows ++ [row]).filter (Row.matchesId v) = [row] := by
  have hold : t.rows.filter (Row.matchesId v) = [] := by
    rw [List.filter_eq_nil_iff]
    intro r hr hm
    rw [matchesId_iff, hv] at hm
    have := h.2 r hr
    simp only [Option.some.injEq] at hm
    omega
  have hnew : row.matchesId v = true := by
    rw [matchesId_iff, hv, hrow]
  rw [List.filter_append, hold, List.nil_append, List.filter_cons, hnew]
  simp

theorem first_of_records (columns : List String) (r : Row) (rest : List Row) :
    (QueryResult.rows ((r :: rest).map (Row.record columns))).first = r.record columns := rfl

theorem mem_allColumns (c : String) (h : c ∈ nonKeyFields) : c ∈ allColumns := by
  simp [allColumns, h]

theorem column_h_id (r : Row) : r.column "h_id" = JsVal.num r.h_id := by
  simp [Row.column]

theorem column_created_at (r : Row) : r.column "created_at" = r.created_at := by
  simp [Row.column]

/-- C5: Create-then-Get round trip over the table model of the store. From a
well-formed table, Create responds with the fresh key of the counter, and a
Get at a path denoting that key answers 200 with a record over the nineteen
columns whose 17 non-key fields each equal the corresponding field of the
request body, whose `h_id` is the returned id and whose `created_at` is set (to
the insertion time). -/
theorem create_then_get (t : Table) (now later : Nat) (body : Props) (path : String)
    (hwf : t.WellFormed) (hpath : idOfValue (JsVal.str path) = some t.autoIncrement) :
    (serve now t (Operation.create body)).1
        = ⟨200, JsVal.obj [("message", JsVal.str "Hoarding added"),
                           ("id", JsVal.num t.autoIncrement)]⟩
    ∧ (∀ r ∈ t.rows, r.h_id ≠ t.autoIncrement)
    ∧ (serve later (serve now t (Operation.create body)).2 (Operation.getById path)).1.status = 200
    ∧ (serve later (serve now t (Operation.create body)).2 (Operation.getById path)).1.body.keys
        = allColumns
    ∧ (∀ c ∈ nonKeyFields,
        (serve later (serve now t (Operation.create body)).2 (Operation.getById path)).1.body.prop c
          = getProp body c)
    ∧ (serve later (serve now t (Operation.create body)).2 (Operation.getById path)).1.body.prop "h_id"
        = JsVal.num t.autoIncrement
    ∧ (serve later (serve now t (Operation.create body)).2
        (Operation.getById path)).1.body.prop "created_at" = JsVal.num now := by
  have hfresh : ∀ r ∈ t.rows, r.h_id ≠ t.autoIncrement := by
    intro r hr
    have := hwf.2 r hr
    omega
  have hget : (serve later (serve now t (Operation.create body)).2 (Operation.getById path)).1
      = ⟨200, ((Row.fresh t.autoIncrement now).written body).record allColumns⟩ := by
    rw [serve_create now t body hwf, serve_getById]
    simp only []
    rw [filter_matches_fresh t hwf (JsVal.str path) _ hpath (written_h_id _ body)]
    rfl
  rw [hget, serve_create now t body hwf]
  refine ⟨rfl, hfresh, rfl, ?_, ?_, ?_, ?_⟩
  · simp [Row.record, JsVal.keys, Function.comp_def]
  · intro c hc
    have hmem : c ∈ allColumns := mem_allColumns c hc
    simp only []
    rw [record_prop _ _ c hmem, written_column _ body c hc]
  · simp only []
    rw [record_prop _ _ "h_id" (by decide), column_h_id, written_h_id]
    rfl
  · simp only []
    rw [record_prop _ _ "created_at" (by decide), column_created_at, written_created_at]
    rfl


theorem create_then_get_witness :
    Table.empty.WellFormed
    ∧ idOfValue (JsVal.str "1") = some Table.empty.autoIncrement
    ∧ (serve 100 Table.empty (Operation.create
          [("h_name", JsVal.str "Billboard A"), ("city", JsVal.str "Pune"),
           ("rental_cost", JsVal.num 5000)])).1
        = ⟨200, JsVal.obj [("message", JsVal.str "Hoarding added"), ("id", JsVal.num 1)]⟩
    ∧ (serve 200 (serve 100 Table.empty (Operation.create
          [("h_name", JsVal.str "Billboard A"), ("city", JsVal.str "Pune"),
           ("rental_cost", JsVal.num 5000)])).2 (Operation.getById "1")).1.body.prop "city"
        = JsVal.str "Pune" :=
  have hwf : Table.empty.WellFormed := ⟨List.nodup_nil, fun _ hr => nomatch hr⟩
  have h := create_then_get Table.empty 100 200
    [("h_name", JsVal.str "Billboard A"), ("city", JsVal.str "Pune"),
     ("rental_cost", JsVal.num 5000)] "1" hwf rfl
  ⟨hwf, rfl, h.1, h.2.2.2.2.1 "city" (by decide)⟩

theorem matchesId_written (v : JsVal) (r : Row) (body : Props) :
    (r.written body).matchesId v = r.matchesId v := by
  simp only [Row.matchesId, written_h_id]

theorem filter_matches_updated (v : JsVal) (body : Props) (rows : List Row) :
    (rows.map fun r => if r.matchesId v then r.written body else r).filter (Row.matchesId v)
      = (rows.filter (Row.matchesId v)).map fun r => r.written body := by
  induction rows with
  | nil => rfl
  | cons r rs ih =>
    by_cases hm : r.matchesId v = true
    · simp only [List.map_cons, hm, if_true, List.filter_cons, matchesId_written, ih]
    · simp only [List.map_cons, hm, if_false, List.filter_cons, ih, Bool.false_eq_true]

theorem filter_others_updated (v : JsVal) (body : Props) (key : Nat) (rows : List Row)
    (hv : idOfValue v = some key) :
    (rows.map fun r => if r.matchesId v then r.written body else r).filter
        (fun r => decide (r.h_id ≠ key))
      = rows.filter fun r => decide (r.h_id ≠ key) := by
  induction rows with
  | nil => rfl
  | cons r rs ih =>
    by_cases hm : r.matchesId v = true
    · have hk : r.h_id = key := by
        rw [matchesId_iff, hv] at hm
        simp only [Option.some.injEq] at hm
        exact hm.symm
      simp only [List.map_cons, hm, if_true, List.filter_cons, written_h_id, hk, ih, ne_eq,
        not_true_eq_false, decide_False, Bool.false_eq_true, if_false]
    · simp only [List.map_cons, hm, if_false, List.filter_cons, ih, Bool.false_eq_true]

theorem map_keys_updated (v : JsVal) (body : Props) (rows : List Row) :
    (rows.map fun r => if r.matchesId v then r.written body else r).map
        (fun r => (r.h_id, r.created_at))
      = rows.map fun r => (r.h_id, r.created_at) := by
  induction rows with
  | nil => rfl
  | cons r rs ih =>
    by_cases hm : r.matchesId v = true
    · simp only [List.map_cons, hm, if_true, written_h_id, written_created_at, ih]
    · simp only [List.map_cons, hm, if_false, ih, Bool.false_eq_true]

/-- C6: Update-then-Get over the table model of the store. For every path id
that denotes the key of an existing row and every request body, Update
acknowledges, and a following Get of the same id answers 200 with a record
whose 17 non-key fields each equal the corresponding field of the body (a key
the body lacks reads as `undefined`, the previous value is not kept), whose
`h_id` is still that key; the rows with a different `h_id` are left
unchanged and no row is added or removed. -/
theorem update_then_get (t : Table) (now later : Nat) (path : String) (body : Props) (key : Nat)
    (hpath : idOfValue (JsVal.str path) = some key) (hex : ∃ r ∈ t.rows, r.h_id = key) :
    (serve now t (Operation.updateById path body)).1
        = ⟨200, JsVal.obj [("message", JsVal.str "Hoarding updated")]⟩
    ∧ (serve later (serve now t (Operation.updateById path body)).2
        (Operation.getById path)).1.status = 200
    ∧ (∀ c ∈ nonKeyFields,
        (serve later (serve now t (Operation.updateById path body)).2
          (Operation.getById path)).1.body.prop c = getProp body c)
    ∧ (serve later (serve now t (Operation.updateById path body)).2
        (Operation.getById path)).1.body.prop "h_id" = JsVal.num key
    ∧ (serve now t (Operation.updateById path body)).2.rows.filter (fun r => decide (r.h_id ≠ key))
        = t.rows.filter (fun r => decide (r.h_id ≠ key))
    ∧ (serve now t (Operation.updateById path body)).2.rows.map Row.h_id = t.rows.map Row.h_id := by
  obtain ⟨r0, hr0, hkey⟩ := hex
  have hm0 : r0.matchesId (JsVal.str path) = true := by
    rw [matchesId_iff, hpath, hkey]
  have hmem : r0 ∈ t.rows.filter (Row.matchesId (JsVal.str path)) :=
    List.mem_filter.mpr ⟨hr0, hm0⟩
  obtain ⟨r1, rest, hfilter⟩ : ∃ r1 rest, t.rows.filter (Row.matchesId (JsVal.str path))
      = r1 :: rest := by
    cases hf : t.rows.filter (Row.matchesId (JsVal.str path)) with
    | nil => rw [hf] at hmem; cases hmem
    | cons a l => exact ⟨a, l, rfl⟩
  have hr1 : r1.h_id = key := by
    have h1 : r1 ∈ t.rows.filter (Row.matchesId (JsVal.str path)) := by
      rw [hfilter]; exact List.mem_cons_self _ _
    have h2 := (List.mem_filter.mp h1).2
    rw [matchesId_iff, hpath] at h2
    simp only [Option.some.injEq] at h2
    exact h2.symm
  have hget : (serve later (serve now t (Operation.updateById path body)).2
      (Operation.getById path)).1 = ⟨200, (r1.written body).record allColumns⟩ := by
    rw [serve_updateById, serve_getById]
    simp only []
    rw [filter_matches_updated, hfilter]
    rfl
  rw [hget, serve_updateById]
  refine ⟨rfl, rfl, ?_, ?_, ?_, ?_⟩
  · intro c hc
    simp only []
    rw [record_prop _ _ c (mem_allColumns c hc), written_column _ body c hc]
  · simp only []
    rw [record_prop _ _ "h_id" (by decide), column_h_id, written_h_id, hr1]
  · exact filter_others_updated (JsVal.str path) body key t.rows hpath
  · have h := congrArg (List.map Prod.fst) (map_keys_updated (JsVal.str path) body t.rows)
    simpa [List.map_map, Function.comp_def] using h


theorem update_then_get_witness :
    idOfValue (JsVal.str "1") = some 1
    ∧ (∃ r ∈ sampleTable.rows, r.h_id = 1)
    ∧ (serve 300 (serve 200 sampleTable (Operation.updateById "1" [("h_name", JsVal.str "New")])).2
        (Operation.getById "1")).1.body.prop "h_name" = JsVal.str "New"
    ∧ (serve 300 (serve 200 sampleTable (Operation.updateById "1" [("h_name", JsVal.str "New")])).2
        (Operation.getById "1")).1.body.prop "notes" = JsVal.undefined :=
  have hex : ∃ r ∈ sampleTable.rows, r.h_id = 1 := ⟨_, List.mem_singleton.mpr rfl, rfl⟩
  have h := update_then_get sampleTable 200 300 "1" [("h_name", JsVal.str "New")] 1 rfl hex
  ⟨rfl, hex, h.2.2.1 "h_name" (by decide), h.2.2.1 "notes" (by decide)⟩

theorem filter_matches_deleted (v : JsVal) (rows : List Row) :
    (rows.filter fun r => !r.matchesId v).filter (Row.matchesId v) = [] := by
  rw [List.filter_filter, List.filter_eq_nil_iff]
  intro r _
  simp

/-- C7: Delete-then-Get over the table model of the store. For every path id
(whether it denotes the key of a row or not), Delete acknowledges and removes
exactly the rows whose `h_id` the id denotes, so no row with a different
`h_id`; a following Get of the same id answers 200 with an empty body. -/
theorem delete_then_get (t : Table) (now later : Nat) (path : String) :
    (serve now t (Operation.deleteById path)).1
        = ⟨200, JsVal.obj [("message", JsVal.str "Hoarding deleted")]⟩
    ∧ (serve later (serve now t (Operation.deleteById path)).2 (Operation.getById path)).1
        = ⟨200, JsVal.undefined⟩
    ∧ (serve now t (Operation.deleteById path)).2.rows
        = t.rows.filter (fun r => decide (idOfValue (JsVal.str path) ≠ some r.h_id))
    ∧ (serve later (serve now t (Operation.deleteById path)).2 (Operation.getById path)).2
        = (serve now t (Operation.deleteById path)).2 := by
  have hget : serve later (serve now t (Operation.deleteById path)).2 (Operation.getById path)
      = (⟨200, JsVal.undefined⟩, (serve now t (Operation.deleteById path)).2) := by
    rw [serve_deleteById, serve_getById]
    simp only []
    rw [filter_matches_deleted]
    rfl
  have hrows : (serve now t (Operation.deleteById path)).2.rows
      = t.rows.filter (fun r => decide (idOfValue (JsVal.str path) ≠ some r.h_id)) := by
    rw [serve_deleteById]
    simp only []
    congr 1
    funext r
    simp [Row.matchesId]
  refine ⟨?_, ?_, hrows, ?_⟩
  · rw [serve_deleteById]
  · rw [hget]
  · rw [hget]

/-! ## Listing after creates -/

theorem createdRows_length (key : Nat) (reqs : List (Nat × Props)) :
    (createdRows key reqs).length = reqs.length := by
  induction reqs generalizing key with
  | nil => rfl
  | cons q rest ih => simp [createdRows, ih]

theorem createdRows_keys (key : Nat) (reqs : List (Nat × Props)) :
    (createdRows key reqs).map Row.h_id = List.range' key reqs.length := by
  induction reqs generalizing key with
  | nil => rfl
  | cons q rest ih =>
    simp only [createdRows, List.map_cons, List.length_cons, List.range'_succ, ih, written_h_id,
      Row.fresh]

theorem createdRows_content (key : Nat) (reqs : List (Nat × Props)) :
    List.Forall₂
      (fun (row : Row) (req : Nat × Props) =>
        row.created_at = JsVal.num req.1 ∧ ∀ c ∈ nonKeyFields, row.column c = getProp req.2 c)
      (createdRows key reqs) reqs := by
  induction reqs generalizing key with
  | nil => exact List.Forall₂.nil
  | cons q rest ih =>
    refine List.Forall₂.cons ⟨?_, fun c hc => written_column _ q.2 c hc⟩ (ih (key + 1))
    rw [written_created_at]
    rfl

theorem createAll_spec (reqs : List (Nat × Props)) (t : Table) (h : t.WellFormed) :
    (createAll t reqs).2
        = { rows := t.rows ++ createdRows t.autoIncrement reqs,
            autoIncrement := t.autoIncrement + reqs.length }
    ∧ (createAll t reqs).1
        = (List.range' t.autoIncrement reqs.length).map (fun (n : Nat) =>
            (⟨200, JsVal.obj [("message", JsVal.str "Hoarding added"), ("id", JsVal.num n)]⟩ :
              Response))
    ∧ (createAll t reqs).2.WellFormed := by
  induction reqs generalizing t with
  | nil => exact ⟨by simp [createAll, createdRows], rfl, h⟩
  | cons q rest ih =>
    obtain ⟨now, body⟩ := q
    have hstep := serve_create now t body h
    have hwf := wellFormed_create now t body h
    obtain ⟨h1, h2, h3⟩ := ih (serve now t (Operation.create body)).2 hwf
    simp only [createAll]
    refine ⟨?_, ?_, h3⟩
    · rw [h1, hstep]
      simp only [createdRows, List.append_assoc, List.singleton_append, List.length_cons,
        Table.mk.injEq, true_and]
      omega
    · rw [h2, hstep]
      simp only [List.length_cons, List.range'_succ, List.map_cons]


theorem record_keys (r : Row) (columns : List String) : (r.record columns).keys = columns := by
  simp [Row.record, JsVal.keys, Function.comp_def]

theorem num_injective : Function.Injective fun (n : Nat) => JsVal.num n := by
  intro a b hab
  simp only [JsVal.num.injEq, Nat.cast_inj] at hab
  exact hab

theorem record_keys_nodup (rows : List Row) (h : (rows.map Row.h_id).Nodup) :
    ((rows.map (Row.record allColumns)).map fun item => item.prop "h_id").Nodup := by
  have hmap : ((rows.map (Row.record allColumns)).map fun item => item.prop "h_id")
      = (rows.map Row.h_id).map fun (n : Nat) => JsVal.num n := by
    simp only [List.map_map]
    refine List.map_congr_left fun r _ => ?_
    simp only [Function.comp_apply]
    rw [record_prop r allColumns "h_id" (by decide), column_h_id]
  rw [hmap]
  exact h.map num_injective

/-- C8: List completeness over the table model of the store. From a
well-formed table, N Create calls all succeed, and List then answers 200 with
exactly the records of the pre-existing rows followed by those of the N created
rows, each once (as many items as rows, pairwise distinct `h_id`), every
record projected over the nineteen persisted columns (`h_id`, the 17 non-key
fields, `created_at`); each created row carries the fields of its request, its
insertion time and the next key of the counter; List leaves the table as it
is. -/
theorem list_after_creates (t : Table) (reqs : List (Nat × Props)) (later : Nat)
    (hwf : t.WellFormed) :
    (createAll t reqs).1.map Response.status = List.replicate reqs.length 200
    ∧ (serve later (createAll t reqs).2 Operation.list).1
        = ⟨200, JsVal.arr
            ((t.rows ++ createdRows t.autoIncrement reqs).map (Row.record allColumns))⟩
    ∧ (serve later (createAll t reqs).2 Operation.list).1.body.items.length
        = t.rows.length + reqs.length
    ∧ ((serve later (createAll t reqs).2 Operation.list).1.body.items.map
        fun item => item.prop "h_id").Nodup
    ∧ (∀ item ∈ (serve later (createAll t reqs).2 Operation.list).1.body.items,
        item.keys = "h_id" :: nonKeyFields ++ ["created_at"])
    ∧ ("h_id" :: nonKeyFields ++ ["created_at"]).length = 19
    ∧ List.Forall₂
        (fun (row : Row) (req : Nat × Props) =>
          row.created_at = JsVal.num req.1 ∧ ∀ c ∈ nonKeyFields, row.column c = getProp req.2 c)
        (createdRows t.autoIncrement reqs) reqs
    ∧ (createdRows t.autoIncrement reqs).map Row.h_id = List.range' t.autoIncrement reqs.length
    ∧ (serve later (createAll t reqs).2 Operation.list).2 = (createAll t reqs).2 := by
  obtain ⟨h1, h2, h3⟩ := createAll_spec reqs t hwf
  have hnodup : ((t.rows ++ createdRows t.autoIncrement reqs).map Row.h_id).Nodup := by
    have := h3.1
    rw [h1] at this
    exact this
  rw [serve_list, h1]
  refine ⟨?_, rfl, ?_, record_keys_nodup _ hnodup, ?_, rfl, createdRows_content _ reqs,
    createdRows_keys _ reqs, rfl⟩
  · rw [h2]
    simp only [List.map_map]
    rw [List.eq_replicate_iff]
    constructor
    · simp
    · intro b hb
      obtain ⟨n, _, rfl⟩ := List.mem_map.mp hb
      rfl
  · simp [JsVal.items, createdRows_length]
  · intro item hitem
    simp only [JsVal.items] at hitem
    obtain ⟨r, _, rfl⟩ := List.mem_map.mp hitem
    exact record_keys r allColumns

theorem list_after_creates_witness :
    Table.empty.WellFormed
    ∧ (serve 30 (createAll Table.empty
          [(10, [("h_name", JsVal.str "A")]), (20, [("h_name", JsVal.str "B")])]).2
        Operation.list).1.body.items.length = 2
    ∧ (createdRows 1 [(10, [("h_name", JsVal.str "A")]), (20, [("h_name", JsVal.str "B")])]).map
        Row.h_id = [1, 2] :=
  have hwf : Table.empty.WellFormed := ⟨List.nodup_nil, fun _ hr => nomatch hr⟩
  have h := list_after_creates Table.empty
    [(10, [("h_name", JsVal.str "A")]), (20, [("h_name", JsVal.str "B")])] 30 hwf
  ⟨hwf, h.2.2.1, h.2.2.2.2.2.2.2.1⟩

/-! ## What the statements bind -/

theorem issued_single (q : Query) (onSuccess : QueryResult → Response) (reply : StoreReply) :
    (Prog.query q (onReply onSuccess)).issued reply = [q] := by
  cases reply <;> rfl

theorem getProp_undefined_of_absent (body : Props) (c : String) (h : c ∉ body.map Prod.fst) :
    getProp body c = JsVal.undefined := by
  induction body with
  | nil => rfl
  | cons p ps ih =>
    obtain ⟨k, v⟩ := p
    simp only [List.map_cons, List.mem_cons, not_or] at h
    simp only [getProp, Ne.symm h.1, if_false]
    exact ih h.2

theorem fieldValues_congr (body other : Props)
    (h : ∀ k, k ≠ "h_id" → k ≠ "created_at" → getProp body k = getProp other k) :
    fieldValues body = fieldValues other := by
  have hz : nonKeyFields.map (getProp body) = nonKeyFields.map (getProp other) :=
    List.map_congr_left fun c hc =>
      h c (nonKeyFields_not_key c hc).1 (nonKeyFields_not_key c hc).2
  exact hz

/-- C9: `h_id` and `created_at` are never taken from the client. Two request
bodies that agree on every key other than `h_id` and `created_at` make Create,
and UpdateByID for the same path id, issue the identical statement text with
the identical bound values; neither statement names the column `h_id` or
`created_at` among the columns it writes; the bound values of Update are the
body's values for the written columns followed by the path id, which is bound
to `WHERE h_id=?`; so on the table model an Update leaves the `h_id` and the
`created_at` of every row as they were. -/
theorem key_columns_not_from_client (body other : Props) (id : String) (reply : StoreReply)
    (t : Table) (now : Nat)
    (h : ∀ k, k ≠ "h_id" → k ≠ "created_at" → getProp body k = getProp other k) :
    (postHoardings body).issued reply = (postHoardings other).issued reply
    ∧ (putHoardingById id body).issued reply = (putHoardingById id other).issued reply
    ∧ (∃ columns slots, parseSql insertSql = some (Stmt.insert "hoardings" columns slots)
        ∧ "h_id" ∉ columns ∧ "created_at" ∉ columns)
    ∧ (∃ columns, parseSql updateSql = some (Stmt.update "hoardings" columns (some "h_id"))
        ∧ "h_id" ∉ columns ∧ "created_at" ∉ columns
        ∧ (putHoardingById id body).issued reply
            = [⟨updateSql, columns.map (getProp body) ++ [JsVal.str id]⟩])
    ∧ (serve now t (Operation.updateById id body)).2.rows.map (fun r => (r.h_id, r.created_at))
        = t.rows.map (fun r => (r.h_id, r.created_at)) := by
  have hv := fieldValues_congr body other h
  refine ⟨?_, ?_, ⟨nonKeyFields, 17, parse_insertSql, by decide, by decide⟩,
    ⟨nonKeyFields, parse_updateSql, by decide, by decide, ?_⟩, ?_⟩
  · simp only [postHoardings, issued_single, hv]
  · simp only [putHoardingById, issued_single, hv]
  · simp only [putHoardingById, issued_single]
    rfl
  · rw [serve_updateById]
    exact map_keys_updated (JsVal.str id) body t.rows

theorem key_columns_not_from_client_witness :
    (∀ k, k ≠ "h_id" → k ≠ "created_at" →
        getProp [("h_id", JsVal.num 99), ("city", JsVal.str "Pune")] k
          = getProp [("city", JsVal.str "Pune"), ("created_at", JsVal.str "2000-01-01")] k)
    ∧ (postHoardings [("h_id", JsVal.num 99), ("city", JsVal.str "Pune")]).issued
          (StoreReply.failure "down")
        = (postHoardings [("city", JsVal.str "Pune"), ("created_at", JsVal.str "2000-01-01")]).issued
          (StoreReply.failure "down")
    ∧ (serve 9 sampleTable
          (Operation.updateById "1" [("h_id", JsVal.num 99), ("city", JsVal.str "Pune")])).2.rows.map
          (fun r => (r.h_id, r.created_at))
        = [(1, JsVal.num 5)] :=
  have hagree : ∀ k, k ≠ "h_id" → k ≠ "created_at" →
      getProp [("h_id", JsVal.num 99), ("city", JsVal.str "Pune")] k
        = getProp [("city", JsVal.str "Pune"), ("created_at", JsVal.str "2000-01-01")] k := by
    intro k h1 h2
    by_cases hc : "city" = k
    · simp [getProp, Ne.symm h1, hc]
    · simp [getProp, Ne.symm h1, Ne.symm h2, hc]
  have h := key_columns_not_from_client [("h_id", JsVal.num 99), ("city", JsVal.str "Pune")]
    [("city", JsVal.str "Pune"), ("created_at", JsVal.str "2000-01-01")] "1"
    (StoreReply.failure "down") sampleTable 9 hagree
  ⟨hagree, h.1, h.2.2.2.2⟩

/-- C10: statement/parameter alignment and pass-through. For every request
body, Create issues exactly one statement, with 17 placeholders and 17 bound
values, the i-th value being the body's value for the i-th column of the INSERT
column list; UpdateByID issues exactly one statement, with 18 placeholders and
18 bound values, the first 17 being the body's values in the order of the SET
columns and the last the path id; a key absent from the body is bound as
`undefined`, so an empty body binds 17 empty values. -/
theorem statements_align (body : Props) (id : String) (reply : StoreReply) (c : String) :
    (postHoardings body).issued reply = [⟨insertSql, fieldValues body⟩]
    ∧ placeholders insertSql = 17
    ∧ (fieldValues body).length = 17
    ∧ (∃ columns, parseSql insertSql = some (Stmt.insert "hoardings" columns 17)
        ∧ fieldValues body = columns.map (getProp body))
    ∧ (putHoardingById id body).issued reply = [⟨updateSql, fieldValues body ++ [JsVal.str id]⟩]
    ∧ placeholders updateSql = 18
    ∧ (fieldValues body ++ [JsVal.str id]).length = 18
    ∧ (∃ columns, parseSql updateSql = some (Stmt.update "hoardings" columns (some "h_id"))
        ∧ fieldValues body ++ [JsVal.str id] = columns.map (getProp body) ++ [JsVal.str id])
    ∧ (c ∈ body.map Prod.fst ∨ getProp body c = JsVal.undefined)
    ∧ fieldValues [] = List.replicate 17 JsVal.undefined := by
  refine ⟨issued_single _ _ reply, by decide, rfl, ⟨nonKeyFields, parse_insertSql, rfl⟩,
    issued_single _ _ reply, by decide, rfl, ⟨nonKeyFields, parse_updateSql, rfl⟩, ?_, rfl⟩
  by_cases hc : c ∈ body.map Prod.fst
  · exact Or.inl hc
  · exact Or.inr (getProp_undefined_of_absent body c hc)

end Hoardings
